import Mathlib

/-
Verification development for the cocinero recipe-to-script compiler
(src/main.rs).  The Rust source is shallowly embedded: recipes, steps and
the step compiler become pure Lean functions; filesystem reads are an
association list from path to content; writes are collected in output
records; fallible operations return Except.  The recipe collection is
passed as a list of (directory name, recipe) pairs whose order models the
iteration order of the HashMap produced by load_all_receipes.
-/

namespace Cocinero

/-- One variable binding: an ordered name-to-value mapping
(one entry of `template_vars` in receipe.toml). -/
abbrev Binding := List (String × String)

/-- Embeds struct Install (src/main.rs lines 60-66). -/
structure Install where
  src : String
  dest : String
  mode : Option String
deriving DecidableEq

/-- Embeds enum Step (src/main.rs lines 36-58). -/
inductive Step
  | install (template : Bool) (ins : Install)
  | shell (template : Bool) (cmd : String)
  | run (template : Bool) (script : String)
deriving DecidableEq

/-- Embeds struct Receipe (src/main.rs lines 23-34). -/
structure Receipe where
  packages : List String
  systemd : List String
  template_vars : List Binding
  steps : List Step
deriving DecidableEq

/-- Errors of a compiler run, mirroring the error kinds that propagate
through main: io errors, template compile errors, strict render errors. -/
inductive CocErr
  | io (msg : String)
  | templateErr (msg : String)
  | renderErr (msg : String)
deriving DecidableEq

instance {ε α : Type} [DecidableEq ε] [DecidableEq α] : DecidableEq (Except ε α) := fun x y =>
  match x, y with
  | .ok a, .ok b =>
    if h : a = b then .isTrue (by rw [h]) else .isFalse (fun hc => h (Except.ok.inj hc))
  | .error a, .error b =>
    if h : a = b then .isTrue (by rw [h]) else .isFalse (fun hc => h (Except.error.inj hc))
  | .ok _, .error _ => .isFalse (fun hc => Except.noConfusion hc)
  | .error _, .ok _ => .isFalse (fun hc => Except.noConfusion hc)

/-- Is the run successful? (Except.ok). -/
def isOkE {α : Type} : Except CocErr α → Bool
  | .ok _ => true
  | .error _ => false

/-- Projection to Option, forgetting the error. -/
def toOpt {α : Type} : Except CocErr α → Option α
  | .ok a => some a
  | .error _ => none

/-! ## Template engine

Modelled from the spec: the TemplateEngine (handlebars, an external
library configured in strict mode by TemplateEnv::new, src/main.rs lines
129-134) compiles template sources into a sequence of literal and
variable-reference segments and renders them against a binding; in strict
mode an unresolved variable reference fails rendering with a RenderError
instead of substituting an empty value.  The surface syntax modelled here
is the double-brace variable reference of handlebars. -/

/-- A compiled template segment: literal text or a variable reference. -/
inductive TmplItem
  | lit (s : String)
  | var (v : String)
deriving DecidableEq

/-- A compiled template. -/
abbrev Template := List TmplItem

def lbrace : Char := Char.ofNat 123
def rbrace : Char := Char.ofNat 125

/-- Parser state machine modes: in literal text, after one opening brace,
inside a variable reference, after one closing brace. -/
inductive PMode
  | text | openOne | inVar | closeOne
deriving DecidableEq

structure PState where
  mode : PMode
  items : List TmplItem
  litAcc : List Char
  varAcc : List Char

/-- Flush the pending literal accumulator into the item list. -/
def flushLit (st : PState) : List TmplItem :=
  if st.litAcc.isEmpty then st.items
  else .lit (String.mk st.litAcc.reverse) :: st.items

/-- One character of template compilation. -/
def pstep (st : PState) (c : Char) : PState :=
  match st.mode with
  | .text =>
    if c = lbrace then { st with mode := .openOne }
    else { st with litAcc := c :: st.litAcc }
  | .openOne =>
    if c = lbrace then { mode := .inVar, items := flushLit st, litAcc := [], varAcc := [] }
    else { st with mode := .text, litAcc := c :: lbrace :: st.litAcc }
  | .inVar =>
    if c = rbrace then { st with mode := .closeOne }
    else { st with varAcc := c :: st.varAcc }
  | .closeOne =>
    if c = rbrace then
      { mode := .text, items := .var (String.mk st.varAcc.reverse) :: st.items,
        litAcc := [], varAcc := [] }
    else { st with mode := .inVar, varAcc := c :: rbrace :: st.varAcc }

/-- Modelled from the spec: template compilation
(TemplateEnv::register_template_string, src/main.rs lines 141-149;
handlebars compilation is external).  An unterminated variable reference
is a compile error (TemplateError). -/
def parseTemplate (s : String) : Except CocErr Template :=
  let st := s.data.foldl pstep { mode := .text, items := [], litAcc := [], varAcc := [] }
  match st.mode with
  | .text => .ok (flushLit st).reverse
  | .openOne => .ok (flushLit { st with litAcc := lbrace :: st.litAcc }).reverse
  | .inVar => .error (.templateErr "unclosed variable reference")
  | .closeOne => .error (.templateErr "unclosed variable reference")

/-- Lookup of a variable in a binding (first match). -/
def lookupVar (b : Binding) (v : String) : Option String :=
  match b with
  | [] => none
  | (k, val) :: rest => if k = v then some val else lookupVar rest v

/-- The variable names referenced by a template. -/
def varRefs (t : Template) : List String :=
  t.filterMap (fun i => match i with | .var v => some v | .lit _ => none)

/-- Modelled from the spec: strict-mode rendering of one segment
(TemplateEnv::render, src/main.rs lines 161-167): an undefined variable
is a RenderError, never an empty substitution. -/
def renderItem (b : Binding) : TmplItem → Except CocErr String
  | .lit s => .ok s
  | .var v =>
    match lookupVar b v with
    | some val => .ok val
    | none => .error (.renderErr ("undefined variable " ++ v))

/-- Modelled from the spec: strict-mode rendering of a template against a
binding, concatenating the rendered segments. -/
def renderTemplate (t : Template) (b : Binding) : Except CocErr String :=
  match t with
  | [] => .ok ""
  | item :: rest =>
    match renderItem b item with
    | .error e => .error e
    | .ok s =>
      match renderTemplate rest b with
      | .error e => .error e
      | .ok r => .ok (s ++ r)

/-! ## Filesystem model -/

/-- The readable source files: path to content. -/
abbrev FileSys := List (String × String)

def fsRead (fs : FileSys) (p : String) : Option String :=
  match fs with
  | [] => none
  | (k, v) :: rest => if k = p then some v else fsRead rest p

/-- Embeds Utf8Path::join: an absolute right operand replaces the left. -/
def pathJoin (a b : String) : String :=
  match b.data with
  | '/' :: _ => b
  | _ => a ++ "/" ++ b

/-- Embeds TemplateEnv::register_template_file (src/main.rs lines
151-159): read the file, then compile it; a missing file is a
TemplateError, as handlebars wraps the io failure. -/
def registerTemplateFile (fs : FileSys) (p : String) : Except CocErr Template :=
  match fsRead fs p with
  | none => .error (.templateErr ("cannot read template file " ++ p))
  | some content => parseTemplate content

/-! ## Step compiler -/

/-- Output of compiling one step (or a list of steps): the command lines
written into the recipe sub-script, the files written into the staging
area (path, content), and the disclaimer warnings printed to stdout. -/
structure StepOutput where
  lines : List String
  staged : List (String × String)
  warnings : List String
deriving DecidableEq

/-- The warning printed by check_managed_disclaimer (src/main.rs line 398). -/
def disclaimerWarning (p : String) : String :=
  "File " ++ p ++ " has no \"managed by cocinero\" disclaimer."

/-- Does the character list hay contain needle as a contiguous infix? -/
def containsSub (hay needle : List Char) : Bool :=
  match hay with
  | [] => needle.isEmpty
  | _ :: t => needle.isPrefixOf hay || containsSub t needle

/-- Embeds check_managed_disclaimer (src/main.rs lines 395-401).  The
content argument is the result of reading the just-staged file back
(none models a read failure, which is fatal); a missing marker only
produces a printed warning and the function still succeeds. -/
def check_managed_disclaimer (p : String) (content : Option String) :
    Except CocErr (List String) :=
  match content with
  | none => .error (.io ("reading " ++ p))
  | some c =>
    if containsSub c.data ("managed by cocinero").data then .ok []
    else .ok [disclaimerWarning p]

/-- The mode argument string built by install_in_script (src/main.rs
lines 405-408).  The source writes it into a local `args` string. -/
def install_args (mode : Option String) : String :=
  match mode with
  | some m => " --mode=" ++ m
  | none => ""

/-- Embeds the line emitted by install_in_script (src/main.rs line 409).
The source builds the `args` string holding the mode flag but the
format string of the writeln does not interpolate it, so the emitted
line never carries the mode (note the doubled space after `install`). -/
def install_in_script (ins : Install) : String :=
  "install  -D " ++ ins.src ++ " " ++ ins.dest

/-- Embeds str::replace('/', "__") on the rendered destination
(src/main.rs line 363). -/
def mangleDest (d : String) : String :=
  String.mk (List.flatten (d.data.map (fun c => if c = '/' then ['_', '_'] else [c])))

/-- Embeds perform_install_file (src/main.rs lines 380-393): copy the
source file to the staging area under its own relative path, run the
disclaimer check on the staged content, emit one install line. -/
def perform_install_file (fs : FileSys) (origDir targetDir : String) (ins : Install) :
    Except CocErr StepOutput :=
  let src_path := pathJoin origDir ins.src
  let target_path := pathJoin targetDir ins.src
  match fsRead fs src_path with
  | none => .error (.io ("copying " ++ src_path))
  | some content =>
    match check_managed_disclaimer target_path (some content) with
    | .error e => .error e
    | .ok warns =>
      .ok { lines := [install_in_script ins], staged := [(target_path, content)],
            warnings := warns }

/-- The per-binding loop of perform_template_install (src/main.rs lines
361-376): render the destination, mangle it into the staging filename,
render the file content into the staged file, check the disclaimer, emit
one install line per binding, in binding order. -/
def templInstallLoop (targetDir : String) (mode : Option String) (dT fT : Template) :
    List Binding → Except CocErr StepOutput
  | [] => .ok { lines := [], staged := [], warnings := [] }
  | v :: rest =>
    match renderTemplate dT v with
    | .error e => .error e
    | .ok dest =>
      match renderTemplate fT v with
      | .error e => .error e
      | .ok content =>
        let dm := mangleDest dest
        let tp := pathJoin targetDir dm
        match check_managed_disclaimer tp (some content) with
        | .error e => .error e
        | .ok warns =>
          match templInstallLoop targetDir mode dT fT rest with
          | .error e => .error e
          | .ok tail =>
            .ok { lines := install_in_script { src := dm, dest := dest, mode := mode } :: tail.lines,
                  staged := (tp, content) :: tail.staged,
                  warnings := warns ++ tail.warnings }

/-- Embeds perform_template_install (src/main.rs lines 349-378): the
destination template and the file template are registered before the
per-binding loop runs. -/
def perform_template_install (fs : FileSys) (origDir targetDir : String)
    (ins : Install) (template_vars : List Binding) : Except CocErr StepOutput :=
  let orig_src_path := pathJoin origDir ins.src
  match parseTemplate ins.dest with
  | .error e => .error e
  | .ok dT =>
    match registerTemplateFile fs orig_src_path with
    | .error e => .error e
    | .ok fT => templInstallLoop targetDir ins.mode dT fT template_vars

/-- The per-binding loop of the templated Shell arm (src/main.rs lines
254-257): render the command once per binding, in binding order. -/
def shellLoop (cmdT : Template) : List Binding → Except CocErr (List String)
  | [] => .ok []
  | v :: rest =>
    match renderTemplate cmdT v with
    | .error e => .error e
    | .ok line =>
      match shellLoop cmdT rest with
      | .error e => .error e
      | .ok tail => .ok (line :: tail)

/-- The per-binding loop of the templated Run arm (src/main.rs lines
274-281): stage one rendered script per binding, named by appending the
zero-based binding index as an extension, and emit one invocation each. -/
def runLoop (targetDir script : String) (fT : Template) (i : Nat) :
    List Binding → Except CocErr StepOutput
  | [] => .ok { lines := [], staged := [], warnings := [] }
  | v :: rest =>
    let dest_name := script ++ "." ++ toString i
    match renderTemplate fT v with
    | .error e => .error e
    | .ok content =>
      match runLoop targetDir script fT (i + 1) rest with
      | .error e => .error e
      | .ok tail =>
        .ok { lines := ("./" ++ dest_name) :: tail.lines,
              staged := (pathJoin targetDir dest_name, content) :: tail.staged,
              warnings := tail.warnings }

/-- Embeds the per-step dispatch of main's step loop (src/main.rs lines
219-284). -/
def compileStep (fs : FileSys) (origDir targetDir : String)
    (template_vars : List Binding) : Step → Except CocErr StepOutput
  | .install false ins => perform_install_file fs origDir targetDir ins
  | .install true ins => perform_template_install fs origDir targetDir ins template_vars
  | .shell false cmd => .ok { lines := [cmd], staged := [], warnings := [] }
  | .shell true cmd =>
    match parseTemplate cmd with
    | .error e => .error e
    | .ok cmdT =>
      match shellLoop cmdT template_vars with
      | .error e => .error e
      | .ok lines => .ok { lines := lines, staged := [], warnings := [] }
  | .run false script =>
    match fsRead fs (pathJoin origDir script) with
    | none => .error (.io ("copying " ++ pathJoin origDir script))
    | some content =>
      .ok { lines := ["./" ++ script], staged := [(pathJoin targetDir script, content)],
            warnings := [] }
  | .run true script =>
    match registerTemplateFile fs (pathJoin origDir script) with
    | .error e => .error e
    | .ok fT => runLoop targetDir script fT 0 template_vars

/-- The step loop of main (src/main.rs lines 219-284): steps are
compiled sequentially in declaration order, appending their output; the
first failure aborts. -/
def stepsLoop (fs : FileSys) (origDir targetDir : String)
    (template_vars : List Binding) : List Step → Except CocErr StepOutput
  | [] => .ok { lines := [], staged := [], warnings := [] }
  | s :: rest =>
    match compileStep fs origDir targetDir template_vars s with
    | .error e => .error e
    | .ok o =>
      match stepsLoop fs origDir targetDir template_vars rest with
      | .error e => .error e
      | .ok tail =>
        .ok { lines := o.lines ++ tail.lines, staged := o.staged ++ tail.staged,
              warnings := o.warnings ++ tail.warnings }

/-! ## Script assembly (main, src/main.rs lines 179-293) -/

/-- Output of compiling one recipe with a non-empty step list: its
sub-script body, staged files, warnings. -/
structure RecipeOutput where
  name : String
  scriptLines : List String
  staged : List (String × String)
  warnings : List String
deriving DecidableEq

/-- Header lines written by create_script (src/main.rs lines 296-312). -/
def scriptHeader : List String :=
  ["#!/usr/bin/bash", "", "# Generated by cocinero", "", "set -e", ""]

def squo : String := String.mk [Char.ofNat 39]

/-- The two lines written into the top-level script for each recipe with
steps (src/main.rs lines 217-218). -/
def invocationLines (name : String) : List String :=
  ["echo " ++ squo ++ "running receipe \"" ++ name ++ "\"" ++ squo,
   "(cd " ++ name ++ " && ./_cook.sh)"]

/-- Worker for chunksOf, structurally recursive on a fuel bound on the
list length (the take/drop recursion itself is not structural). -/
def chunksOfAux {α : Type} (n : Nat) : Nat → List α → List (List α)
  | _, [] => []
  | 0, _ :: _ => []
  | fuel + 1, x :: xs => (x :: xs.take (n - 1)) :: chunksOfAux n fuel (xs.drop (n - 1))

/-- Embeds Itertools::chunks(n): successive chunks of at most n
elements, in order. -/
def chunksOf {α : Type} (n : Nat) (l : List α) : List (List α) :=
  chunksOfAux n l.length l

/-- The package chunks of the run (src/main.rs lines 199-206): all
recipes' package lists flattened in recipe iteration order, chunked at
64 per emitted line. -/
def packageChunks (receipes : List (String × Receipe)) : List (List String) :=
  chunksOf 64 (List.flatten (receipes.map (fun nr => nr.2.packages)))

/-- One package-install command line (src/main.rs lines 200-206). -/
def packageLine (chunk : List String) : String :=
  "apt-get install" ++ String.join (chunk.map (fun p => " " ++ p))

/-- The systemd activation phase (src/main.rs lines 287-292): for every
recipe in iteration order, for every unit in declaration order, an
enable line and a reload-or-restart line. -/
def systemdLines (receipes : List (String × Receipe)) : List String :=
  List.flatten (receipes.map (fun nr =>
    List.flatten (nr.2.systemd.map (fun u =>
      ["systemctl enable --now " ++ u, "systemctl reload-or-restart " ++ u]))))

/-- Embeds the body of main's recipe loop (src/main.rs lines 208-285)
for one recipe. -/
def compileReceipe (fs : FileSys) (receipesRoot target : String)
    (name : String) (r : Receipe) : Except CocErr RecipeOutput :=
  let origDir := pathJoin receipesRoot name
  let targetDir := pathJoin target name
  match stepsLoop fs origDir targetDir r.template_vars r.steps with
  | .error e => .error e
  | .ok o =>
    .ok { name := name, scriptLines := o.lines, staged := o.staged,
          warnings := o.warnings }

/-- The recipe loop of main (src/main.rs lines 208-285): recipes with an
empty step list are skipped entirely; the others are compiled in
iteration order. -/
def receipesLoop (fs : FileSys) (receipesRoot target : String) :
    List (String × Receipe) → Except CocErr (List RecipeOutput)
  | [] => .ok []
  | (name, r) :: rest =>
    if r.steps.isEmpty then receipesLoop fs receipesRoot target rest
    else
      match compileReceipe fs receipesRoot target name r with
      | .error e => .error e
      | .ok o =>
        match receipesLoop fs receipesRoot target rest with
        | .error e => .error e
        | .ok tail => .ok (o :: tail)

/-- Output of a whole successful run: the top-level cook.sh lines and
the per-recipe outputs (each carrying its sub-script and staged files). -/
structure RunOutput where
  cookLines : List String
  recipes : List RecipeOutput
deriving DecidableEq

/-- Embeds main (src/main.rs lines 179-293): header, package phase,
per-recipe phase (banner and invocation per compiled recipe), systemd
phase. -/
def runCompiler (fs : FileSys) (receipesRoot target : String)
    (receipes : List (String × Receipe)) : Except CocErr RunOutput :=
  match receipesLoop fs receipesRoot target receipes with
  | .error e => .error e
  | .ok ros =>
    .ok { cookLines :=
            scriptHeader ++ ["echo " ++ squo ++ "starting to cook" ++ squo]
              ++ (packageChunks receipes).map packageLine ++ [""]
              ++ List.flatten (ros.map (fun ro => invocationLines ro.name)) ++ [""]
              ++ systemdLines receipes,
          recipes := ros }

/-- The full per-recipe sub-script (_cook.sh): header plus step lines. -/
def recipeScript (ro : RecipeOutput) : List String :=
  scriptHeader ++ ro.scriptLines

/-- Is a step templated? -/
def Step.isTemplated : Step → Bool
  | .install t _ => t
  | .shell t _ => t
  | .run t _ => t

/-- Line count promised per step: one per binding when templated, else one. -/
def expectedLineCount (s : Step) (n : Nat) : Nat :=
  if s.isTemplated then n else 1

/-- Staged artifact count per step: Shell steps stage nothing; Install
and Run stage one artifact per binding when templated, else one. -/
def expectedStagedCount (s : Step) (n : Nat) : Nat :=
  match s with
  | .shell _ _ => 0
  | .install true _ => n
  | .run true _ => n
  | .install false _ => 1
  | .run false _ => 1

/-- Combine independent per-step outputs in order. -/
def joinOuts (outs : List StepOutput) : StepOutput :=
  { lines := (outs.map StepOutput.lines).flatten,
    staged := (outs.map StepOutput.staged).flatten,
    warnings := (outs.map StepOutput.warnings).flatten }

/-- The contribution of one recipe-map entry to the compiled recipe list:
none when its step list is empty, otherwise its compilation result. -/
def gRec (fs : FileSys) (root tgt : String) (nr : String × Receipe) : Option RecipeOutput :=
  if nr.2.steps.isEmpty then none else toOpt (compileReceipe fs root tgt nr.1 nr.2)

/-- Declarative per-binding behaviour of the templated Install loop:
the emitted line, the staged file, and the warnings for one binding. -/
def templInstallSpec (td : String) (mode : Option String) (dT fT : Template)
    (v : Binding) : Except CocErr (String × (String × String) × List String) :=
  match renderTemplate dT v with
  | .error e => .error e
  | .ok dest =>
    match renderTemplate fT v with
    | .error e => .error e
    | .ok content =>
      .ok (install_in_script { src := mangleDest dest, dest := dest, mode := mode },
           (pathJoin td (mangleDest dest), content),
           if containsSub content.data ("managed by cocinero").data then []
           else [disclaimerWarning (pathJoin td (mangleDest dest))])

/-- Combine per-binding results of a templated Install step in binding order. -/
def tmplCombine (l : List (String × (String × String) × List String)) : StepOutput :=
  { lines := l.map (fun x => x.1),
    staged := l.map (fun x => x.2.1),
    warnings := (l.map (fun x => x.2.2)).flatten }

/-- Line count of a step output. -/
def lineCount (o : StepOutput) : Nat := o.lines.length

/-- Staged artifact count of a step output. -/
def stagedCount (o : StepOutput) : Nat := o.staged.length

/-- The per-recipe outputs of a run as a multiset (order forgotten). -/
def recipesMultiset (o : RunOutput) : Multiset RecipeOutput :=
  (o.recipes : Multiset RecipeOutput)

/-- Two opening braces (the handlebars variable-reference opener). -/
def obr : String := String.mk [lbrace, lbrace]

/-- Two closing braces (the handlebars variable-reference closer). -/
def cbr : String := String.mk [rbrace, rbrace]

/-! Concrete sample data used to evaluate the definitions. -/

def rxA : Receipe := { packages := ["a"], systemd := [], template_vars := [], steps := [] }

def rxB : Receipe := { packages := ["b"], systemd := [], template_vars := [], steps := [] }

/-- A recipe with packages and a systemd unit but no steps. -/
def rxEmpty : Receipe :=
  { packages := ["p"], systemd := ["u"], template_vars := [], steps := [] }

/-- A recipe whose single templated Shell step references a variable that
its one (empty) binding does not define. -/
def rxBadShell : Receipe :=
  { packages := [], systemd := [], template_vars := [[]],
    steps := [.shell true ("echo " ++ obr ++ "x" ++ cbr)] }

def lC3 : List (String × Receipe) :=
  [("r1", { packages := ["a", "b"], systemd := [], template_vars := [], steps := [] }),
   ("r2", { packages := ["c"], systemd := [], template_vars := [], steps := [] })]

def oC3 : RunOutput :=
  { cookLines := ["#!/usr/bin/bash", "", "# Generated by cocinero", "", "set -e", "",
      "echo " ++ squo ++ "starting to cook" ++ squo, "apt-get install a b c", "", ""],
    recipes := [] }

def lC9 : List (String × Receipe) := [("e", rxEmpty)]

def oC9 : RunOutput :=
  { cookLines := ["#!/usr/bin/bash", "", "# Generated by cocinero", "", "set -e", "",
      "echo " ++ squo ++ "starting to cook" ++ squo, "apt-get install p", "", "",
      "systemctl enable --now u", "systemctl reload-or-restart u"],
    recipes := [] }

def dT6 : Template := [.var "x"]

def fT6 : Template := [.lit "managed by cocinero "]

def tv6 : List Binding := [[("x", "/etc/a")]]

def fsC2 : FileSys := [("origdir/app.conf", "content managed by cocinero")]

def fsC8 : FileSys := [("o/a.conf", "plain content")]

def insC8 : Install := { src := "a.conf", dest := "/etc/a.conf", mode := none }

/-- An unterminated template source. -/
def badT : String := "echo " ++ obr ++ "x"

def stC4 : Step := .shell true "echo hi"

def outC5 : StepOutput := { lines := ["./s.0"], staged := [("t/s.0", "")], warnings := [] }

/-- Is the result a strict-mode render error? -/
def isRenderErr {α : Type} : Except CocErr α → Bool
  | .error (.renderErr _) => true
  | _ => false

/-! ## Helper lemmas -/

theorem chunksOfAux_flatten {α : Type} (n : Nat) :
    ∀ (fuel : Nat) (l : List α), l.length ≤ fuel →
      (chunksOfAux n fuel l).flatten = l := by
  intro fuel
  induction fuel with
  | zero =>
    intro l hl
    cases l with
    | nil => rfl
    | cons x xs => simp at hl
  | succ fuel ih =>
    intro l hl
    cases l with
    | nil => rfl
    | cons x xs =>
      simp only [chunksOfAux, List.flatten_cons, List.cons_append]
      rw [ih (xs.drop (n - 1)) ?hle, List.take_append_drop]
      case hle =>
        simp only [List.length_drop]
        simp only [List.length_cons] at hl
        omega

theorem chunksOf_flatten {α : Type} (n : Nat) (l : List α) :
    (chunksOf n l).flatten = l :=
  chunksOfAux_flatten n l.length l (Nat.le_refl _)

theorem chunksOfAux_mem_length {α : Type} (n : Nat) (hn : 0 < n) :
    ∀ (fuel : Nat) (l : List α) (c : List α), c ∈ chunksOfAux n fuel l → c.length ≤ n := by
  intro fuel
  induction fuel with
  | zero =>
    intro l c hc
    cases l with
    | nil => simp [chunksOfAux] at hc
    | cons x xs => simp [chunksOfAux] at hc
  | succ fuel ih =>
    intro l c hc
    cases l with
    | nil => simp [chunksOfAux] at hc
    | cons x xs =>
      simp only [chunksOfAux] at hc
      rcases List.mem_cons.mp hc with h | h
      · subst h
        have := List.length_take (n - 1) xs
        simp only [List.length_cons]
        omega
      · exact ih (xs.drop (n - 1)) c h

theorem chunksOf_mem_length {α : Type} (n : Nat) (hn : 0 < n) (l : List α) (c : List α)
    (hc : c ∈ chunksOf n l) : c.length ≤ n :=
  chunksOfAux_mem_length n hn l.length l c hc

theorem ebind_ok {α β : Type} (a : α) (f : α → Except CocErr β) :
    (Except.ok a : Except CocErr α) >>= f = f a := rfl

theorem ebind_error {α β : Type} (e : CocErr) (f : α → Except CocErr β) :
    (Except.error e : Except CocErr α) >>= f = Except.error e := rfl

theorem epure_eq {α : Type} (a : α) : (pure a : Except CocErr α) = Except.ok a := rfl

theorem efmap_eq {α β : Type} (f : α → β) (x : Except CocErr α) : f <$> x = x.map f := rfl

theorem emap_ok {α β : Type} (f : α → β) (a : α) :
    (Except.ok a : Except CocErr α).map f = Except.ok (f a) := rfl

theorem emap_error {α β : Type} (f : α → β) (e : CocErr) :
    (Except.error e : Except CocErr α).map f = Except.error e := rfl

theorem shellLoop_eq_mapM (cmdT : Template) :
    ∀ tv : List Binding, shellLoop cmdT tv = tv.mapM (renderTemplate cmdT) := by
  intro tv
  induction tv with
  | nil => rfl
  | cons v rest ih =>
    rw [List.mapM_cons, ← ih]
    simp only [shellLoop]
    cases hr : renderTemplate cmdT v with
    | error e => simp only [ebind_error]
    | ok line =>
      simp only [ebind_ok]
      cases hs : shellLoop cmdT rest with
      | error e => simp only [ebind_error]
      | ok tail => simp only [ebind_ok, epure_eq]

theorem mapM_ok_length {α β : Type} (f : α → Except CocErr β) :
    ∀ (l : List α) (ys : List β), l.mapM f = .ok ys → ys.length = l.length := by
  intro l
  induction l with
  | nil =>
    intro ys h
    rw [List.mapM_nil, epure_eq] at h
    cases h
    rfl
  | cons x xs ih =>
    intro ys h
    rw [List.mapM_cons] at h
    cases hx : f x with
    | error e =>
      rw [hx, ebind_error] at h
      exact Except.noConfusion h
    | ok y =>
      rw [hx, ebind_ok] at h
      cases hm : xs.mapM f with
      | error e =>
        rw [hm, ebind_error] at h
        exact Except.noConfusion h
      | ok tail =>
        rw [hm, ebind_ok, epure_eq] at h
        cases h
        simp [ih tail hm]

theorem check_some_ok (p c : String) :
    check_managed_disclaimer p (some c)
      = .ok (if containsSub c.data ("managed by cocinero").data then []
             else [disclaimerWarning p]) := by
  by_cases hc : containsSub c.data ("managed by cocinero").data = true
  · simp [check_managed_disclaimer, hc]
  · simp [check_managed_disclaimer, hc]

theorem templInstallLoop_eq_mapM (td : String) (mode : Option String) (dT fT : Template) :
    ∀ tv : List Binding,
      templInstallLoop td mode dT fT tv
        = (tv.mapM (templInstallSpec td mode dT fT)).map tmplCombine := by
  intro tv
  induction tv with
  | nil => rfl
  | cons v rest ih =>
    rw [List.mapM_cons]
    simp only [templInstallLoop, templInstallSpec]
    cases hd : renderTemplate dT v with
    | error e => simp only [ebind_error, emap_error]
    | ok dest =>
      cases hf : renderTemplate fT v with
      | error e => simp only [ebind_error, emap_error]
      | ok content =>
        simp only [check_some_ok, ebind_ok]
        rw [ih]
        cases hm : rest.mapM (templInstallSpec td mode dT fT) with
        | error e => simp only [ebind_error, emap_error]
        | ok tail => simp only [ebind_ok, epure_eq, emap_ok, tmplCombine,
            List.map_cons, List.flatten_cons]

theorem runLoop_ok (td script : String) (fT : Template) :
    ∀ (tv : List Binding) (i : Nat) (out : StepOutput),
      runLoop td script fT i tv = .ok out →
      out.lines = (List.range tv.length).map
          (fun j => "./" ++ (script ++ "." ++ toString (i + j)))
      ∧ out.staged.length = tv.length := by
  intro tv
  induction tv with
  | nil =>
    intro i out h
    simp only [runLoop] at h
    cases h
    simp
  | cons v rest ih =>
    intro i out h
    simp only [runLoop] at h
    cases hr : renderTemplate fT v with
    | error e => rw [hr] at h; exact Except.noConfusion h
    | ok content =>
      rw [hr] at h
      cases hl : runLoop td script fT (i + 1) rest with
      | error e => rw [hl] at h; exact Except.noConfusion h
      | ok tail =>
        rw [hl] at h
        cases h
        obtain ⟨hlines, hstaged⟩ := ih (i + 1) tail hl
        refine ⟨?_, by simp [hstaged]⟩
        simp only [List.length_cons, List.range_succ_eq_map, List.map_cons,
          List.map_map, hlines]
        congr 1
        apply List.map_congr_left
        intro j _
        have h2 : i + 1 + j = i + (j + 1) := by omega
        simp [Function.comp, h2]

theorem stepsLoop_eq_mapM (fs : FileSys) (od td : String) (tv : List Binding) :
    ∀ steps : List Step,
      stepsLoop fs od td tv steps
        = (steps.mapM (compileStep fs od td tv)).map joinOuts := by
  intro steps
  induction steps with
  | nil => rfl
  | cons s rest ih =>
    rw [List.mapM_cons]
    simp only [stepsLoop]
    cases hc : compileStep fs od td tv s with
    | error e => simp only [ebind_error, emap_error]
    | ok o =>
      simp only [ebind_ok]
      rw [ih]
      cases hm : rest.mapM (compileStep fs od td tv) with
      | error e => simp only [ebind_error, emap_error]
      | ok outs => simp only [ebind_ok, epure_eq, emap_ok, joinOuts,
          List.map_cons, List.flatten_cons]

theorem compileReceipe_ok_name (fs : FileSys) (root tgt n : String) (r : Receipe)
    (o : RecipeOutput) (h : compileReceipe fs root tgt n r = .ok o) : o.name = n := by
  simp only [compileReceipe] at h
  cases hs : stepsLoop fs (pathJoin root n) (pathJoin tgt n) r.template_vars r.steps with
  | error e => rw [hs] at h; exact Except.noConfusion h
  | ok so => rw [hs] at h; cases h; rfl

theorem compileReceipe_empty_ok (fs : FileSys) (root tgt n : String) (r : Receipe)
    (he : r.steps.isEmpty = true) : ∃ o, compileReceipe fs root tgt n r = .ok o := by
  have hnil : r.steps = [] := List.isEmpty_iff.mp he
  simp only [compileReceipe, hnil, stepsLoop]
  exact ⟨_, rfl⟩

theorem receipesLoop_ok_eq (fs : FileSys) (root tgt : String) :
    ∀ (l : List (String × Receipe)) (ros : List RecipeOutput),
      receipesLoop fs root tgt l = .ok ros →
      ros = l.filterMap (gRec fs root tgt) := by
  intro l
  induction l with
  | nil => intro ros h; simp only [receipesLoop] at h; cases h; rfl
  | cons nr rest ih =>
    intro ros h
    obtain ⟨name, r⟩ := nr
    simp only [receipesLoop] at h
    rw [List.filterMap_cons]
    by_cases hemp : r.steps.isEmpty
    · rw [if_pos hemp] at h
      have hg : gRec fs root tgt (name, r) = none := by simp [gRec, hemp]
      rw [hg]
      exact ih ros h
    · rw [if_neg hemp] at h
      cases hc : compileReceipe fs root tgt name r with
      | error e => rw [hc] at h; exact Except.noConfusion h
      | ok o =>
        rw [hc] at h
        cases hrest : receipesLoop fs root tgt rest with
        | error e => rw [hrest] at h; exact Except.noConfusion h
        | ok tail =>
          rw [hrest] at h
          cases h
          have hg : gRec fs root tgt (name, r) = some o := by simp [gRec, hemp, hc, toOpt]
          rw [hg]
          rw [ih tail hrest]

theorem stepsLoop_error_of_mem (fs : FileSys) (od td : String) (tv : List Binding) :
    ∀ (steps : List Step) (s : Step), s ∈ steps →
      isOkE (compileStep fs od td tv s) = false →
      isOkE (stepsLoop fs od td tv steps) = false := by
  intro steps
  induction steps with
  | nil => intro s hs _; exact absurd hs (List.not_mem_nil s)
  | cons a rest ih =>
    intro s hs he
    simp only [stepsLoop]
    cases hc : compileStep fs od td tv a with
    | error e => rfl
    | ok o =>
      rcases List.mem_cons.mp hs with h | h
      · subst h; rw [hc] at he; simp [isOkE] at he
      · have hrest := ih s h he
        cases hr : stepsLoop fs od td tv rest with
        | error e => rfl
        | ok tail => rw [hr] at hrest; simp [isOkE] at hrest

theorem compileReceipe_error_of_step (fs : FileSys) (root tgt n : String) (r : Receipe)
    (s : Step) (hs : s ∈ r.steps)
    (he : isOkE (compileStep fs (pathJoin root n) (pathJoin tgt n) r.template_vars s) = false) :
    isOkE (compileReceipe fs root tgt n r) = false := by
  simp only [compileReceipe]
  have hloop := stepsLoop_error_of_mem fs (pathJoin root n) (pathJoin tgt n)
    r.template_vars r.steps s hs he
  cases hr : stepsLoop fs (pathJoin root n) (pathJoin tgt n) r.template_vars r.steps with
  | error e => rfl
  | ok so => rw [hr] at hloop; simp [isOkE] at hloop

theorem receipesLoop_error_of_mem (fs : FileSys) (root tgt : String) :
    ∀ (l : List (String × Receipe)) (n : String) (r : Receipe), (n, r) ∈ l →
      isOkE (compileReceipe fs root tgt n r) = false →
      isOkE (receipesLoop fs root tgt l) = false := by
  intro l
  induction l with
  | nil => intro n r hmem _; exact absurd hmem (List.not_mem_nil _)
  | cons nr rest ih =>
    intro n r hmem he
    obtain ⟨m, r2⟩ := nr
    simp only [receipesLoop]
    by_cases hemp : r2.steps.isEmpty
    · rw [if_pos hemp]
      rcases List.mem_cons.mp hmem with h | h
      · obtain ⟨o, ho⟩ := compileReceipe_empty_ok fs root tgt m r2 hemp
        injection h with h1 h2
        rw [h1, h2, ho] at he
        simp [isOkE] at he
      · exact ih n r h he
    · rw [if_neg hemp]
      cases hc : compileReceipe fs root tgt m r2 with
      | error e => rfl
      | ok o =>
        rcases List.mem_cons.mp hmem with h | h
        · injection h with h1 h2
          rw [h1, h2, hc] at he
          simp [isOkE] at he
        · have hrest := ih n r h he
          cases hr : receipesLoop fs root tgt rest with
          | error e => rfl
          | ok tail => rw [hr] at hrest; simp [isOkE] at hrest

theorem runCompiler_isOk (fs : FileSys) (root tgt : String) (l : List (String × Receipe)) :
    isOkE (runCompiler fs root tgt l) = isOkE (receipesLoop fs root tgt l) := by
  simp only [runCompiler]
  cases h : receipesLoop fs root tgt l <;> rfl

theorem runCompiler_ok_parts (fs : FileSys) (root tgt : String)
    (l : List (String × Receipe)) (o : RunOutput) (h : runCompiler fs root tgt l = .ok o) :
    receipesLoop fs root tgt l = .ok o.recipes
    ∧ o.cookLines = scriptHeader ++ ["echo " ++ squo ++ "starting to cook" ++ squo]
        ++ (packageChunks l).map packageLine ++ [""]
        ++ (o.recipes.map (fun ro => invocationLines ro.name)).flatten ++ [""]
        ++ systemdLines l := by
  simp only [runCompiler] at h
  cases hr : receipesLoop fs root tgt l with
  | error e => rw [hr] at h; exact Except.noConfusion h
  | ok ros => rw [hr] at h; cases h; exact ⟨rfl, rfl⟩

theorem mangleDest_no_slash (d : String) : '/' ∉ (mangleDest d).data := by
  simp only [mangleDest]
  intro hmem
  rw [List.mem_flatten] at hmem
  obtain ⟨piece, hp, hc⟩ := hmem
  rw [List.mem_map] at hp
  obtain ⟨c, _, hceq⟩ := hp
  subst hceq
  by_cases h : c = '/'
  · rw [if_pos h] at hc; simp at hc
  · rw [if_neg h] at hc; simp at hc; exact h hc.symm

theorem renderTemplate_strict_none (b : Binding) (v : String) :
    ∀ t : Template, v ∈ varRefs t → lookupVar b v = none →
      ∃ m, renderTemplate t b = .error (.renderErr m) := by
  intro t
  induction t with
  | nil => intro hv _; simp [varRefs] at hv
  | cons item rest ih =>
    intro hv hn
    cases item with
    | lit s =>
      have hv2 : v ∈ varRefs rest := by simpa [varRefs] using hv
      obtain ⟨m, hm⟩ := ih hv2 hn
      exact ⟨m, by simp only [renderTemplate, renderItem, hm]⟩
    | var w =>
      cases hw : lookupVar b w with
      | none =>
        exact ⟨"undefined variable " ++ w, by simp only [renderTemplate, renderItem, hw]⟩
      | some val =>
        have hv2 : v ∈ varRefs rest := by
          have hcases : v = w ∨ v ∈ varRefs rest := by simpa [varRefs] using hv
          rcases hcases with h | h
          · subst h; rw [hn] at hw; exact Option.noConfusion hw
          · exact h
        obtain ⟨m, hm⟩ := ih hv2 hn
        refine ⟨m, ?_⟩
        simp only [renderTemplate, renderItem, hw, hm]

theorem renderTemplate_ok_all_bound (b : Binding) (t : Template)
    (ht : isOkE (renderTemplate t b) = true) :
    ∀ v ∈ varRefs t, (lookupVar b v).isSome = true := by
  intro v hv
  cases hl : lookupVar b v with
  | some val => rfl
  | none =>
    obtain ⟨m, hm⟩ := renderTemplate_strict_none b v t hv hl
    rw [hm] at ht
    simp [isOkE] at ht

theorem assoc_nodup_eq {β : Type} :
    ∀ (l : List (String × β)) (n : String) (b c : β),
      (l.map Prod.fst).Nodup → (n, b) ∈ l → (n, c) ∈ l → b = c := by
  intro l
  induction l with
  | nil => intro n b c _ hb _; exact absurd hb (List.not_mem_nil _)
  | cons x rest ih =>
    intro n b c hnd hb hc
    rw [List.map_cons, List.nodup_cons] at hnd
    rcases List.mem_cons.mp hb with h1 | h1
    · rcases List.mem_cons.mp hc with h2 | h2
      · rw [← h1] at h2; injection h2 with _ h3; exact h3.symm
      · exfalso
        apply hnd.1
        rw [← h1]
        exact List.mem_map.mpr ⟨(n, c), h2, rfl⟩
    · rcases List.mem_cons.mp hc with h2 | h2
      · exfalso
        apply hnd.1
        rw [← h2]
        exact List.mem_map.mpr ⟨(n, b), h1, rfl⟩
      · exact ih n b c hnd.2 h1 h2

theorem systemdLines_mem (l : List (String × Receipe)) (n : String) (r : Receipe)
    (hmem : (n, r) ∈ l) (u : String) (hu : u ∈ r.systemd) :
    ("systemctl enable --now " ++ u) ∈ systemdLines l
    ∧ ("systemctl reload-or-restart " ++ u) ∈ systemdLines l := by
  constructor <;>
  · simp only [systemdLines, List.mem_flatten, List.mem_map]
    refine ⟨_, ⟨(n, r), hmem, rfl⟩, ?_⟩
    simp only [List.mem_flatten, List.mem_map]
    exact ⟨_, ⟨u, hu, rfl⟩, by simp⟩

theorem echo_line_inj (m n : String)
    (h : "echo " ++ squo ++ "running receipe \"" ++ m ++ "\"" ++ squo
       = "echo " ++ squo ++ "running receipe \"" ++ n ++ "\"" ++ squo) : m = n := by
  obtain ⟨md⟩ := m
  obtain ⟨nd⟩ := n
  have hd := congrArg String.data h
  simp only [String.data_append] at hd
  have h1 := List.append_cancel_right hd
  have h2 := List.append_cancel_right h1
  have h3 := List.append_cancel_left h2
  exact congrArg String.mk h3

theorem cd_line_inj (m n : String)
    (h : "(cd " ++ m ++ " && ./_cook.sh)" = "(cd " ++ n ++ " && ./_cook.sh)") : m = n := by
  obtain ⟨md⟩ := m
  obtain ⟨nd⟩ := n
  have hd := congrArg String.data h
  simp only [String.data_append] at hd
  have h1 := List.append_cancel_right hd
  have h2 := List.append_cancel_left h1
  exact congrArg String.mk h2

theorem invocation_lines_disjoint (m n : String) (hmn : m ≠ n) :
    ∀ line ∈ invocationLines m, line ∉ invocationLines n := by
  intro line hlm hln
  have echoHead : ∀ x : String,
      ("echo " ++ squo ++ "running receipe \"" ++ x ++ "\"" ++ squo).data.head?
        = some 'e' := by
    intro x
    obtain ⟨xd⟩ := x
    rfl
  have cdHead : ∀ x : String,
      ("(cd " ++ x ++ " && ./_cook.sh)").data.head? = some '(' := by
    intro x
    obtain ⟨xd⟩ := x
    rfl
  simp only [invocationLines, List.mem_cons, List.not_mem_nil, or_false] at hlm hln
  rcases hlm with h1 | h1 <;> rcases hln with h2 | h2
  · exact hmn (echo_line_inj m n (h1.symm.trans h2).symm.symm)
  · have h := h1.symm.trans h2
    have hh : ("echo " ++ squo ++ "running receipe \"" ++ m ++ "\"" ++ squo).data.head?
        = ("(cd " ++ n ++ " && ./_cook.sh)").data.head? := congrArg (fun s => s.data.head?) h
    rw [echoHead m, cdHead n] at hh
    exact absurd hh (by decide)
  · have h := h1.symm.trans h2
    have hh : ("(cd " ++ m ++ " && ./_cook.sh)").data.head?
        = ("echo " ++ squo ++ "running receipe \"" ++ n ++ "\"" ++ squo).data.head?
      := congrArg (fun s => s.data.head?) h
    rw [cdHead m, echoHead n] at hh
    exact absurd hh (by decide)
  · exact hmn (cd_line_inj m n (h1.symm.trans h2))

/-! ## Claims -/

/-- C1 (counterexample): as stated, the claim is false: two runs on the
same recipe set whose HashMap iteration orders differ produce different
cook.sh bytes (the package line names the packages in iteration order).
The two argument lists below hold the same recipes; they model the two
iteration orders two processes can observe. -/
theorem c1_byte_identity_counterexample :
    decide ((toOpt (runCompiler [] "receipes" "cocinero_target"
          [("ra", rxA), ("rb", rxB)])).map RunOutput.cookLines
        = (toOpt (runCompiler [] "receipes" "cocinero_target"
          [("rb", rxB), ("ra", rxA)])).map RunOutput.cookLines) = false := by
  decide

/-- C1 (amended): two runs that enumerate the recipe map in the same
order are byte-identical (the compiler is a pure function of the
enumeration), and across any two enumeration orders of the same recipe
set the per-recipe outputs (sub-script lines, staged files, warnings)
coincide as a multiset; only the line order of the top-level cook.sh
depends on the enumeration. -/
theorem c1_determinism_up_to_order (fs : FileSys) (root tgt : String)
    (l1 l2 : List (String × Receipe)) (hp : l1.Perm l2)
    (h1 : isOkE (runCompiler fs root tgt l1) = true)
    (h2 : isOkE (runCompiler fs root tgt l2) = true) :
    (toOpt (runCompiler fs root tgt l1)).map recipesMultiset
      = (toOpt (runCompiler fs root tgt l2)).map recipesMultiset := by
  cases ho1 : runCompiler fs root tgt l1 with
  | error e => rw [ho1] at h1; simp [isOkE] at h1
  | ok o1 =>
    cases ho2 : runCompiler fs root tgt l2 with
    | error e => rw [ho2] at h2; simp [isOkE] at h2
    | ok o2 =>
      obtain ⟨hr1, _⟩ := runCompiler_ok_parts fs root tgt l1 o1 ho1
      obtain ⟨hr2, _⟩ := runCompiler_ok_parts fs root tgt l2 o2 ho2
      have e1 := receipesLoop_ok_eq fs root tgt l1 o1.recipes hr1
      have e2 := receipesLoop_ok_eq fs root tgt l2 o2.recipes hr2
      simp only [toOpt, Option.map, recipesMultiset]
      congr 1
      rw [Multiset.coe_eq_coe, e1, e2]
      exact hp.filterMap (gRec fs root tgt)

theorem c1_determinism_up_to_order_witness :
    (toOpt (runCompiler [] "receipes" "cocinero_target" [("ra", rxA), ("rb", rxB)])).map
        recipesMultiset
      = (toOpt (runCompiler [] "receipes" "cocinero_target" [("rb", rxB), ("ra", rxA)])).map
        recipesMultiset :=
  c1_determinism_up_to_order [] "receipes" "cocinero_target"
    [("ra", rxA), ("rb", rxB)] [("rb", rxB), ("ra", rxA)]
    (List.Perm.swap ("rb", rxB) ("ra", rxA) []) (by decide) (by decide)

/-- C2: the claim promises ` --mode=<mode>` is appended whenever a mode
is specified, but install_in_script builds the flag string and never
emits it: with mode 0644 the emitted line is exactly
`install  -D app.conf /etc/app.conf`, which does not contain the flag
the source prepared in its `args` string. -/
theorem c2_mode_flag_dropped :
    perform_install_file fsC2 "origdir" "targetdir"
        { src := "app.conf", dest := "/etc/app.conf", mode := some "0644" }
      = .ok { lines := ["install  -D app.conf /etc/app.conf"],
              staged := [("targetdir/app.conf", "content managed by cocinero")],
              warnings := [] }
    ∧ install_args (some "0644") = " --mode=0644"
    ∧ containsSub "install  -D app.conf /etc/app.conf".data " --mode=0644".data = false := by
  refine ⟨by decide, rfl, by decide⟩

/-- C3: for a successful run, the package-install lines of the top-level
script cover exactly the flattening of all recipes' package lists in
recipe iteration order (no deduplication, order preserved), each emitted
line naming at most 64 packages. -/
theorem c3_package_phase (fs : FileSys) (root tgt : String)
    (l : List (String × Receipe)) (o : RunOutput)
    (h : runCompiler fs root tgt l = .ok o) :
    (packageChunks l).flatten = (l.map (fun nr => nr.2.packages)).flatten
    ∧ (∀ c ∈ packageChunks l, c.length ≤ 64)
    ∧ (∃ pre post, o.cookLines = pre ++ (packageChunks l).map packageLine ++ post) := by
  refine ⟨?_, ?_, ?_⟩
  · exact chunksOf_flatten 64 ((l.map (fun nr => nr.2.packages)).flatten)
  · intro c hc
    exact chunksOf_mem_length 64 (by omega) _ c hc
  · obtain ⟨_, hcook⟩ := runCompiler_ok_parts fs root tgt l o h
    refine ⟨scriptHeader ++ ["echo " ++ squo ++ "starting to cook" ++ squo],
      [""] ++ (o.recipes.map (fun ro => invocationLines ro.name)).flatten ++ [""]
        ++ systemdLines l, ?_⟩
    rw [hcook]
    simp [List.append_assoc]

theorem c3_package_phase_witness :
    (packageChunks lC3).flatten = ["a", "b", "c"]
    ∧ (["a", "b", "c"] : List String).length ≤ 64 := by
  have h := c3_package_phase [] "receipes" "tgt" lC3 oC3 (by decide)
  exact ⟨h.1.trans (by decide), h.2.1 ["a", "b", "c"] (by decide)⟩

/-- C4 (counterexample): as stated, the claim is false: a templated
Shell step with one binding produces zero staged artifacts, not one. -/
theorem c4_shell_staging_counterexample :
    (toOpt (compileStep [] "o" "t" [[]] (.shell true "echo hi"))).map stagedCount = some 0
    ∧ decide ((toOpt (compileStep [] "o" "t" [[]] (.shell true "echo hi"))).map stagedCount
        = some 1) = false := by
  exact ⟨by decide, by decide⟩

/-- C4 (amended): a successfully compiled templated step emits exactly
one command line per binding; templated Install and Run steps stage one
artifact per binding while templated Shell steps stage none; a
non-templated step emits exactly one line, staging one artifact for
Install and Run and none for Shell. -/
theorem c4_cardinality (fs : FileSys) (od td : String) (tv : List Binding) (s : Step)
    (h : isOkE (compileStep fs od td tv s) = true) :
    (toOpt (compileStep fs od td tv s)).map lineCount
        = some (expectedLineCount s tv.length)
    ∧ (toOpt (compileStep fs od td tv s)).map stagedCount
        = some (expectedStagedCount s tv.length) := by
  cases s with
  | install t ins =>
    cases t with
    | false =>
      cases hf : fsRead fs (pathJoin od ins.src) with
      | none => simp [compileStep, perform_install_file, hf, isOkE] at h
      | some content =>
        simp [compileStep, perform_install_file, hf, check_some_ok, toOpt, lineCount,
          stagedCount, expectedLineCount, expectedStagedCount, Step.isTemplated]
    | true =>
      cases hd : parseTemplate ins.dest with
      | error e => simp [compileStep, perform_template_install, hd, isOkE] at h
      | ok dT =>
        cases hr : registerTemplateFile fs (pathJoin od ins.src) with
        | error e => simp [compileStep, perform_template_install, hd, hr, isOkE] at h
        | ok fT =>
          simp only [compileStep, perform_template_install, hd, hr,
            templInstallLoop_eq_mapM] at h ⊢
          cases hm : tv.mapM (templInstallSpec td ins.mode dT fT) with
          | error e => rw [hm] at h; simp [isOkE, emap_error] at h
          | ok lst =>
            have hlen := mapM_ok_length _ tv lst hm
            simp [emap_ok, toOpt, lineCount, stagedCount, tmplCombine,
              expectedLineCount, expectedStagedCount, Step.isTemplated, hlen]
  | shell t cmd =>
    cases t with
    | false =>
      simp [compileStep, toOpt, lineCount, stagedCount, expectedLineCount,
        expectedStagedCount, Step.isTemplated]
    | true =>
      cases hp : parseTemplate cmd with
      | error e => simp [compileStep, hp, isOkE] at h
      | ok cmdT =>
        simp only [compileStep, hp, shellLoop_eq_mapM] at h ⊢
        cases hm : tv.mapM (renderTemplate cmdT) with
        | error e => rw [hm] at h; simp [isOkE] at h
        | ok lines =>
          have hlen := mapM_ok_length _ tv lines hm
          simp [toOpt, lineCount, stagedCount, expectedLineCount,
            expectedStagedCount, Step.isTemplated, hlen]
  | run t script =>
    cases t with
    | false =>
      cases hf : fsRead fs (pathJoin od script) with
      | none => simp [compileStep, hf, isOkE] at h
      | some content =>
        simp [compileStep, hf, toOpt, lineCount, stagedCount, expectedLineCount,
          expectedStagedCount, Step.isTemplated]
    | true =>
      cases hr : registerTemplateFile fs (pathJoin od script) with
      | error e => simp [compileStep, hr, isOkE] at h
      | ok fT =>
        simp only [compileStep, hr] at h ⊢
        cases hl : runLoop td script fT 0 tv with
        | error e => rw [hl] at h; simp [isOkE] at h
        | ok out =>
          obtain ⟨hlines, hstaged⟩ := runLoop_ok td script fT tv 0 out hl
          have hlen : out.lines.length = tv.length := by rw [hlines]; simp
          simp [toOpt, lineCount, stagedCount, expectedLineCount, expectedStagedCount,
            Step.isTemplated, hlen, hstaged]

theorem c4_cardinality_witness :
    (toOpt (compileStep [] "o" "t" [[], []] stC4)).map lineCount = some 2
    ∧ (toOpt (compileStep [] "o" "t" [[], []] stC4)).map stagedCount = some 0 := by
  have h := c4_cardinality [] "o" "t" [[], []] stC4 (by decide)
  exact ⟨h.1.trans (by decide), h.2.trans (by decide)⟩

/-- C5: the sequential step loop emits exactly the concatenation, in
step declaration order, of the per-step outputs; within a templated
Shell step the lines are the renders of the bindings in binding order;
within a templated Run step the invocation lines follow the zero-based
binding index order. -/
theorem c5_ordering :
    (∀ (fs : FileSys) (od td : String) (tv : List Binding) (steps : List Step),
        stepsLoop fs od td tv steps = (steps.mapM (compileStep fs od td tv)).map joinOuts)
    ∧ (∀ (cmdT : Template) (tv : List Binding),
        shellLoop cmdT tv = tv.mapM (renderTemplate cmdT))
    ∧ (∀ (td script : String) (fT : Template) (tv : List Binding) (out : StepOutput),
        runLoop td script fT 0 tv = .ok out →
        out.lines = (List.range tv.length).map
          (fun j => "./" ++ (script ++ "." ++ toString j))) := by
  refine ⟨stepsLoop_eq_mapM, shellLoop_eq_mapM, ?_⟩
  intro td script fT tv out h
  rw [(runLoop_ok td script fT tv 0 out h).1]
  apply List.map_congr_left
  intro j _
  simp

theorem c5_ordering_witness :
    stepsLoop [] "o" "t" [] [Step.shell false "x"]
      = (([Step.shell false "x"] : List Step).mapM (compileStep [] "o" "t" [])).map joinOuts
    ∧ outC5.lines = ["./s.0"] := by
  refine ⟨c5_ordering.1 [] "o" "t" [] [Step.shell false "x"], ?_⟩
  have h := c5_ordering.2.2 "t" "s" [] [[]] outC5 (by decide)
  exact h.trans (by decide)

/-- C6: per binding of a templated Install step, the staged file is
named by replacing every path separator of the rendered destination
with a double underscore (the staged name contains no separator) while
the emitted install line carries the mangled name as source and the
rendered destination unchanged as target; the loop processes bindings
in order; the spec example /etc/foo/bar.conf mangles to the
separator-free __etc__foo__bar.conf. -/
theorem c6_path_mangling :
    (∀ (td : String) (mode : Option String) (dT fT : Template) (v : Binding)
        (d c : String), renderTemplate dT v = .ok d → renderTemplate fT v = .ok c →
        ∃ w, templInstallSpec td mode dT fT v
            = .ok (install_in_script { src := mangleDest d, dest := d, mode := mode },
                   (pathJoin td (mangleDest d), c), w))
    ∧ (∀ (td : String) (mode : Option String) (dT fT : Template) (tv : List Binding),
        templInstallLoop td mode dT fT tv
          = (tv.mapM (templInstallSpec td mode dT fT)).map tmplCombine)
    ∧ (∀ d : String, '/' ∉ (mangleDest d).data)
    ∧ mangleDest "/etc/foo/bar.conf" = "__etc__foo__bar.conf" := by
  refine ⟨?_, templInstallLoop_eq_mapM, mangleDest_no_slash, by decide⟩
  intro td mode dT fT v d c hd hc
  exact ⟨if containsSub c.data ("managed by cocinero").data then []
         else [disclaimerWarning (pathJoin td (mangleDest d))],
    by simp only [templInstallSpec, hd, hc]⟩

theorem c6_path_mangling_witness :
    isOkE (templInstallSpec "t" none dT6 fT6 [("x", "/etc/a")]) = true
    ∧ templInstallLoop "t" none dT6 fT6 tv6
        = (tv6.mapM (templInstallSpec "t" none dT6 fT6)).map tmplCombine
    ∧ mangleDest "/etc/foo/bar.conf" = "__etc__foo__bar.conf" := by
  obtain ⟨w, hw⟩ := c6_path_mangling.1 "t" none dT6 fT6 [("x", "/etc/a")]
    "/etc/a" "managed by cocinero " (by decide) (by decide)
  exact ⟨by rw [hw]; rfl, c6_path_mangling.2.1 "t" none dT6 fT6 tv6,
    c6_path_mangling.2.2.2⟩

/-- C7: strict rendering: a reference to a variable the binding does not
define makes the render fail with a RenderError (never an empty
substitution: a successful render implies every referenced variable is
bound), and a failing step aborts the whole run: a failed compileStep
fails the recipe step loop, and a failed recipe compilation fails
runCompiler (Except.error, the non-zero exit of main). -/
theorem c7_strict_render :
    (∀ (t : Template) (b : Binding) (v : String), v ∈ varRefs t →
        lookupVar b v = none → ∃ m, renderTemplate t b = .error (.renderErr m))
    ∧ (∀ (t : Template) (b : Binding), isOkE (renderTemplate t b) = true →
        ∀ v ∈ varRefs t, (lookupVar b v).isSome = true)
    ∧ (∀ (fs : FileSys) (od td : String) (tv : List Binding) (steps : List Step)
          (s : Step), s ∈ steps → isOkE (compileStep fs od td tv s) = false →
        isOkE (stepsLoop fs od td tv steps) = false)
    ∧ (∀ (fs : FileSys) (root tgt : String) (l : List (String × Receipe)) (n : String)
          (r : Receipe), (n, r) ∈ l →
        isOkE (compileReceipe fs root tgt n r) = false →
        isOkE (runCompiler fs root tgt l) = false) := by
  refine ⟨fun t b v hv hn => renderTemplate_strict_none b v t hv hn,
          fun t b ht => renderTemplate_ok_all_bound b t ht,
          fun fs od td tv steps s hs he => stepsLoop_error_of_mem fs od td tv steps s hs he,
          fun fs root tgt l n r hm he => ?_⟩
  rw [runCompiler_isOk]
  exact receipesLoop_error_of_mem fs root tgt l n r hm he

theorem c7_strict_render_witness :
    isRenderErr (renderTemplate [TmplItem.var "x"] []) = true
    ∧ isOkE (runCompiler [] "receipes" "tgt" [("bad", rxBadShell)]) = false := by
  constructor
  · obtain ⟨m, hm⟩ := c7_strict_render.1 [TmplItem.var "x"] [] "x" (by decide) rfl
    rw [hm]
    rfl
  · exact c7_strict_render.2.2.2 [] "receipes" "tgt" [("bad", rxBadShell)] "bad"
      rxBadShell (by decide) (by decide)

/-- C8: the disclaimer check is advisory: content lacking the marker
yields a printed warning and a successful result, content carrying it
yields no warning, only a failed read-back is a fatal error, and an
untemplated Install step whose source file exists compiles successfully
whatever the staged content says. -/
theorem c8_disclaimer_advisory :
    (∀ p c : String, containsSub c.data ("managed by cocinero").data = false →
        check_managed_disclaimer p (some c) = .ok [disclaimerWarning p])
    ∧ (∀ p c : String, containsSub c.data ("managed by cocinero").data = true →
        check_managed_disclaimer p (some c) = .ok [])
    ∧ (∀ p : String, check_managed_disclaimer p none = .error (.io ("reading " ++ p)))
    ∧ (∀ (fs : FileSys) (od td : String) (ins : Install) (content : String),
        fsRead fs (pathJoin od ins.src) = some content →
        isOkE (perform_install_file fs od td ins) = true) := by
  refine ⟨?_, ?_, fun p => rfl, ?_⟩
  · intro p c hc
    rw [check_some_ok, hc]
    simp
  · intro p c hc
    rw [check_some_ok, hc]
    simp
  · intro fs od td ins content hf
    simp [perform_install_file, hf, check_some_ok, isOkE]

theorem c8_disclaimer_advisory_witness :
    check_managed_disclaimer "f.conf" (some "no marker here")
      = .ok [disclaimerWarning "f.conf"]
    ∧ check_managed_disclaimer "f.conf" none = .error (.io ("reading " ++ "f.conf"))
    ∧ isOkE (perform_install_file fsC8 "o" "t" insC8) = true :=
  ⟨c8_disclaimer_advisory.1 "f.conf" "no marker here" (by decide),
   c8_disclaimer_advisory.2.2.1 "f.conf",
   c8_disclaimer_advisory.2.2.2 fsC8 "o" "t" insC8 "plain content" (by decide)⟩

/-- C9: a recipe with an empty step list is skipped by the recipe loop:
no compiled recipe output (hence no sub-script, staged file or staging
directory) carries its name and no invocation block is emitted for it,
while its packages still reach the package phase and its systemd units
still reach the systemd phase of the top-level script. -/
theorem c9_empty_steps_skipped (fs : FileSys) (root tgt : String)
    (l : List (String × Receipe)) (n : String) (r : Receipe) (o : RunOutput)
    (hmem : (n, r) ∈ l) (hsteps : r.steps = [])
    (hnd : (l.map Prod.fst).Nodup) (h : runCompiler fs root tgt l = .ok o) :
    (∀ ro ∈ o.recipes, ro.name ≠ n)
    ∧ (∀ line ∈ (o.recipes.map (fun ro => invocationLines ro.name)).flatten,
        line ∉ invocationLines n)
    ∧ (∀ u ∈ r.systemd, ("systemctl enable --now " ++ u) ∈ o.cookLines
        ∧ ("systemctl reload-or-restart " ++ u) ∈ o.cookLines)
    ∧ (∀ p ∈ r.packages, p ∈ (packageChunks l).flatten) := by
  obtain ⟨hr, hcook⟩ := runCompiler_ok_parts fs root tgt l o h
  have hros := receipesLoop_ok_eq fs root tgt l o.recipes hr
  have hnames : ∀ ro ∈ o.recipes, ro.name ≠ n := by
    intro ro hro hname
    rw [hros] at hro
    rw [List.mem_filterMap] at hro
    obtain ⟨nr, hnr_mem, hg⟩ := hro
    by_cases hemp : nr.2.steps.isEmpty
    · simp [gRec, hemp] at hg
    · rw [gRec, if_neg hemp] at hg
      cases hc : compileReceipe fs root tgt nr.1 nr.2 with
      | error e => rw [hc] at hg; simp [toOpt] at hg
      | ok o2 =>
        rw [hc] at hg
        simp only [toOpt, Option.some.injEq] at hg
        have hname2 : nr.1 = n := by
          rw [← hname, ← hg]
          exact (compileReceipe_ok_name fs root tgt nr.1 nr.2 o2 hc).symm
        have hsame : nr.2 = r := by
          have hpair : nr = (nr.1, nr.2) := rfl
          rw [hpair, hname2] at hnr_mem
          exact assoc_nodup_eq l n nr.2 r hnd hnr_mem hmem
        rw [hsame, hsteps] at hemp
        simp at hemp
  refine ⟨hnames, ?_, ?_, ?_⟩
  · intro line hl
    rw [List.mem_flatten] at hl
    obtain ⟨blk, hblk, hline⟩ := hl
    rw [List.mem_map] at hblk
    obtain ⟨ro, hro, hblk_eq⟩ := hblk
    subst hblk_eq
    exact invocation_lines_disjoint ro.name n (hnames ro hro) line hline
  · intro u hu
    have hsys := systemdLines_mem l n r hmem u hu
    rw [hcook]
    constructor <;> simp [hsys.1, hsys.2]
  · intro p hp
    rw [packageChunks, chunksOf_flatten]
    rw [List.mem_flatten]
    exact ⟨r.packages, List.mem_map.mpr ⟨(n, r), hmem, rfl⟩, hp⟩

theorem c9_empty_steps_skipped_witness :
    ("systemctl enable --now " ++ "u") ∈ oC9.cookLines
    ∧ ("p" : String) ∈ (packageChunks lC9).flatten := by
  have h := c9_empty_steps_skipped [] "receipes" "tgt" lC9 "e" rxEmpty oC9
    (by decide) rfl (by decide) (by decide)
  exact ⟨(h.2.2.1 "u" (by decide)).1, h.2.2.2 "p" (by decide)⟩

/-- C10: templates of a templated step are registered and compiled before
the per-binding loop, so with an empty binding list a compile failure
(bad template syntax for Shell or a templated Install destination, or an
unreadable template file for templated Install and Run) still fails the
step, and any failing step of a listed recipe fails the whole run. -/
theorem c10_compile_before_empty_loop :
    (∀ (fs : FileSys) (od td : String) (cmd : String) (e : CocErr),
        parseTemplate cmd = .error e →
        compileStep fs od td [] (.shell true cmd) = .error e)
    ∧ (∀ (fs : FileSys) (od td : String) (ins : Install) (e : CocErr),
        parseTemplate ins.dest = .error e →
        compileStep fs od td [] (.install true ins) = .error e)
    ∧ (∀ (fs : FileSys) (od td : String) (ins : Install) (dT : Template),
        parseTemplate ins.dest = .ok dT →
        fsRead fs (pathJoin od ins.src) = none →
        compileStep fs od td [] (.install true ins)
          = .error (.templateErr ("cannot read template file " ++ pathJoin od ins.src)))
    ∧ (∀ (fs : FileSys) (od td : String) (script : String),
        fsRead fs (pathJoin od script) = none →
        compileStep fs od td [] (.run true script)
          = .error (.templateErr ("cannot read template file " ++ pathJoin od script)))
    ∧ (∀ (fs : FileSys) (root tgt : String) (l : List (String × Receipe)) (n : String)
          (r : Receipe) (s : Step), (n, r) ∈ l → s ∈ r.steps →
        isOkE (compileStep fs (pathJoin root n) (pathJoin tgt n) r.template_vars s)
          = false →
        isOkE (runCompiler fs root tgt l) = false) := by
  refine ⟨?_, ?_, ?_, ?_, ?_⟩
  · intro fs od td cmd e hp
    simp [compileStep, hp]
  · intro fs od td ins e hp
    simp [compileStep, perform_template_install, hp]
  · intro fs od td ins dT hp hf
    simp [compileStep, perform_template_install, hp, registerTemplateFile, hf]
  · intro fs od td script hf
    simp [compileStep, registerTemplateFile, hf]
  · intro fs root tgt l n r s hmem hs he
    rw [runCompiler_isOk]
    exact receipesLoop_error_of_mem fs root tgt l n r hmem
      (compileReceipe_error_of_step fs root tgt n r s hs he)

theorem c10_compile_before_empty_loop_witness :
    compileStep [] "od" "td" [] (.shell true badT)
      = .error (.templateErr "unclosed variable reference")
    ∧ compileStep [] "od" "td" [] (.run true "s.sh")
      = .error (.templateErr ("cannot read template file " ++ pathJoin "od" "s.sh")) :=
  ⟨c10_compile_before_empty_loop.1 [] "od" "td" badT
      (.templateErr "unclosed variable reference") (by decide),
   c10_compile_before_empty_loop.2.2.2.1 [] "od" "td" "s.sh" rfl⟩

end Cocinero

